import Mathlib

/-!
Verification development for the Life Desk Telegram bot (TypeScript source).

This file shallowly embeds the core logic named by the specification:

* the per-user input-mode state machine backed by the `user_input_states`
  SQLite table (`setUserInputState` / `getUserInputState` /
  `clearUserInputState` in `src/commands.ts`, schema in `schema.sql`);
* the text-message consumption path `handleUserInput`;
* the reminder keyword gate `parseReminderFromText`;
* the free-text time-expression parser `parseTimeExpression`.

Conventions of the embedding:

* JavaScript numbers that can become `NaN` on the modelled paths are
  represented by `JSNum`; all other numeric values are `Int` (epoch
  milliseconds, hours, ...).  The magnitudes involved are far below the
  2^53 precision limit of JS doubles, so exact integer arithmetic is
  faithful.
* The source runs with a fixed local clock (the spec's "fixed local-clock
  assumption"); local civil time is modelled as UTC, so one civil day is
  exactly 86400000 ms and `Date#getHours`, `Date#setHours`,
  `Date#setDate` have simple arithmetic meanings.
* JavaScript regular-expression searches are modelled by hand-written
  scanners that try a match at every start position from the left, with
  the backtracking behaviour of the concrete patterns reproduced where it
  matters (greedy `\d{1,2}` before a delimiter, the optional `(?:at\s+)?`
  prefix, the lazy `(.+?)$` tail).
-/

namespace LifeDesk

/-- A JavaScript number that may be `NaN` (all non-`NaN` values of
interest are integers). -/
inductive JSNum where
  | nan : JSNum
  | num : Int → JSNum
deriving DecidableEq, Repr

/-- Addition of a constant to a JS number; `NaN` propagates. -/
def jsAddMs : JSNum → Int → JSNum
  | JSNum.nan, _ => JSNum.nan
  | JSNum.num a, b => JSNum.num (a + b)

/-- The comparison `a.getTime() <= b` of JS: any comparison with `NaN`
is `false`. -/
def jsLe : JSNum → Int → Bool
  | JSNum.nan, _ => false
  | JSNum.num a, b => a ≤ b

/-- JS `\d`: the ASCII digits. -/
def isDigitCh (c : Char) : Bool := c.isDigit

/-- JS `\s` (the whitespace class), restricted to the ASCII whitespace
characters plus NBSP; the exotic Unicode space characters are not used by
any input considered here. -/
def isJsWS (c : Char) : Bool :=
  c = ' ' ∨ c = '\t' ∨ c = '\n' ∨ c = '\r' ∨ c = '\x0b' ∨ c = '\x0c' ∨ c = '\u00A0'

/-- The characters JS `.` (without the `s` flag) does not match. -/
def isJsLineTerm (c : Char) : Bool :=
  c = '\n' ∨ c = '\r' ∨ c = '\u2028' ∨ c = '\u2029'

/-- Numeric value of a list of ASCII digits. -/
def digitsVal (l : List Char) : Int :=
  l.foldl (fun a c => a * 10 + (Int.ofNat (c.toNat - 48))) 0

/-- Decimal value of a capture that the regex guarantees to be a digit
string (JS `parseInt` on such a capture). -/
def parseIntD (s : String) : Int := digitsVal s.data

/-- JS `parseInt(x, 10)` on a possibly-undefined capture: skip leading
whitespace, optional sign, then leading digits; no digits (as for the
string `"am"`) gives `NaN`, and an undefined capture also gives `NaN`. -/
def parseIntJS : Option String → JSNum
  | none => JSNum.nan
  | some s =>
    let l := s.data.dropWhile isJsWS
    let sl : Int × List Char :=
      match l with
      | '-' :: r => (-1, r)
      | '+' :: r => (1, r)
      | _ => (1, l)
    let ds := sl.2.takeWhile isDigitCh
    if ds = [] then JSNum.nan else JSNum.num (sl.1 * digitsVal ds)

/-- JS truthiness of a possibly-undefined capture string: `undefined` and
the empty string are falsy, every other string is truthy. -/
def truthyStr : Option String → Bool
  | none => false
  | some s => s ≠ ""

/-- Days since 1970-01-01 of the civil date `y-m-d` (proleptic Gregorian
calendar, `m` in 1..12; `d` may be out of range, extra days simply shift
the result).  Standard civil-from-days conversion using floor division,
which for the positive divisors used here is Lean's `Int` `/`. -/
def daysFromCivil (y m d : Int) : Int :=
  let y1 : Int := if m ≤ 2 then y - 1 else y
  let era : Int := y1 / 400
  let yoe : Int := y1 - era * 400
  let mp : Int := (m + 9) % 12
  let doy : Int := (153 * mp + 2) / 5 + d - 1
  let doe : Int := yoe * 365 + yoe / 4 - yoe / 100 + doy
  era * 146097 + doe - 719468

/-- Epoch milliseconds of `new Date(year, month, day, hour, minutes, 0, 0)`
(JS semantics, local = UTC): a year argument in 0..99 is mapped to
1900+year, the month argument is 0-based and overflows into the year
(floored division), and out-of-range day/hour/minute arguments roll
over arithmetically. -/
def makeDateMs (year month day hour minutes : Int) : Int :=
  let yr : Int := if 0 ≤ year ∧ year ≤ 99 then year + 1900 else year
  let ym : Int := yr + month / 12
  let mn : Int := month % 12
  (daysFromCivil ym (mn + 1) day) * 86400000 + hour * 3600000 + minutes * 60000

/-- Epoch milliseconds of local midnight of the civil day containing `t`
(the date part kept by `new Date(t)` before `setHours`). -/
def dayStartMs (t : Int) : Int := t - t % 86400000

/-- `Date#getHours` of the instant `t` (local = UTC). -/
def nowHours (t : Int) : Int := (t / 3600000) % 24

/-- `targetTime = new Date(now); targetTime.setHours(h, min, 0, 0)` with a
possibly-`NaN` minutes value: setting `NaN` minutes invalidates the date,
so `getTime()` is `NaN`. -/
def jsSetHours (now h : Int) (minutes : JSNum) : JSNum :=
  match minutes with
  | JSNum.nan => JSNum.nan
  | JSNum.num m => JSNum.num (dayStartMs now + h * 3600000 + m * 60000)

/-- First success of `f` over a list of backtracking candidates (the JS
regex engine tries alternatives in order and keeps the first match). -/
def firstSome (xs : List α) (f : α → Option β) : Option β := xs.findSome? f

/-- Strip a literal (already lower-cased) string from the front. -/
def stripLit : List Char → List Char → Option (List Char)
  | [], l => some l
  | p :: ps, c :: cs => if c = p then stripLit ps cs else none
  | _ :: _, [] => none

/-- Candidates for `\d{1,2}` at the current position, greedy first: the
two-digit reading, then the one-digit reading.  Empty when the position
does not start with a digit. -/
def dTake (l : List Char) : List (String × List Char) :=
  match l with
  | c1 :: rest =>
    if isDigitCh c1 then
      match rest with
      | c2 :: rest2 =>
        if isDigitCh c2 then [(String.mk [c1, c2], rest2), (String.mk [c1], rest)]
        else [(String.mk [c1], rest)]
      | [] => [(String.mk [c1], [])]
    else []
  | [] => []

/-- Match `\d{4}` at the current position. -/
def d4 (l : List Char) : Option (String × List Char) :=
  match l with
  | a :: b :: c :: d :: rest =>
    if isDigitCh a ∧ isDigitCh b ∧ isDigitCh c ∧ isDigitCh d then
      some (String.mk [a, b, c, d], rest)
    else none
  | _ => none

/-- Match `\d+` (greedy) at the current position. -/
def dPlus (l : List Char) : Option (String × List Char) :=
  let ds := l.takeWhile isDigitCh
  if ds = [] then none else some (String.mk ds, l.dropWhile isDigitCh)

/-- Match the optional group `(?::(\d{2}))?` at the current position:
greedy, but falls back to the empty alternative when the colon is not
followed by two digits. -/
def optColonMM (l : List Char) : Option String × List Char :=
  match l with
  | ':' :: a :: b :: rest =>
    if isDigitCh a ∧ isDigitCh b then (some (String.mk [a, b]), rest)
    else (none, l)
  | _ => (none, l)

/-- Match the optional group `(am|pm)?` at the current position (the text
is already lower-cased). -/
def optAmPm (l : List Char) : Option String × List Char :=
  match stripLit ['a', 'm'] l with
  | some r => (some "am", r)
  | none =>
    match stripLit ['p', 'm'] l with
    | some r => (some "pm", r)
    | none => (none, l)

/-- Match the mandatory `(am|pm)` at the current position. -/
def reqAmPm (l : List Char) : Option (String × List Char) :=
  match optAmPm l with
  | (some s, r) => some (s, r)
  | (none, _) => none

/-- Candidates for the leading optional group `(?:at\s+)?`, greedy first:
consume `at` plus at least one whitespace character if possible, else
match nothing. -/
def atWordOpt (l : List Char) : List (List Char) :=
  match stripLit ['a', 't'] l with
  | some r =>
    if (r.takeWhile isJsWS) = [] then [l] else [r.dropWhile isJsWS, l]
  | none => [l]

/-- Whether `pat` occurs as a substring (JS `String#includes`). -/
def containsSub : List Char → List Char → Bool
  | l, pat =>
    match l with
    | [] => (stripLit pat []).isSome
    | _ :: rest => (stripLit pat l).isSome || containsSub rest pat

/-- Captures of the three full-date regexes, indexed like the JS match
array: groups 1-3 are the mandatory numeric groups, groups 4-6 the
optional time-of-day (`hour`, `minutes`, `am|pm`). -/
structure DateCaps where
  g1 : String
  g2 : String
  g3 : String
  g4 : Option String
  g5 : Option String
  g6 : Option String
deriving DecidableEq, Repr

/-- Match the shared optional tail `(?:\s+(\d{1,2})(?::(\d{2}))?\s*(am|pm)?)?`
of the three date formats at the current position.  The inner group can
only fail at `\s+` or at the hour digits; everything after the hour is
itself optional, so the greedy two-digit hour reading always wins. -/
def optTimeGroup (l : List Char) : Option String × Option String × Option String :=
  if (l.takeWhile isJsWS) = [] then (none, none, none)
  else
    match dTake (l.dropWhile isJsWS) with
    | [] => (none, none, none)
    | (h, rest) :: _ =>
      let mm := optColonMM rest
      let ap := optAmPm (mm.2.dropWhile isJsWS)
      (some h, mm.1, ap.1)

/-- Try `(\d{1,2})S(\d{1,2})S(\d{4})(?:\s+(\d{1,2})(?::(\d{2}))?\s*(am|pm)?)?`
at the current position, for a separator character `S` (`:` or `/`). -/
def matchSepDateAt (sep : Char) (l : List Char) : Option DateCaps :=
  firstSome (dTake l) fun p1 =>
    match p1.2 with
    | c :: r2 =>
      if c = sep then
        firstSome (dTake r2) fun p2 =>
          match p2.2 with
          | c2 :: r4 =>
            if c2 = sep then
              match d4 r4 with
              | some (g3, r5) =>
                let t := optTimeGroup r5
                some ⟨p1.1, p2.1, g3, t.1, t.2.1, t.2.2⟩
              | none => none
            else none
          | [] => none
      else none
    | [] => none

/-- Try `(\d{4})-(\d{1,2})-(\d{1,2})(?:\s+(\d{1,2})(?::(\d{2}))?\s*(am|pm)?)?`
at the current position. -/
def matchIsoDateAt (l : List Char) : Option DateCaps :=
  match d4 l with
  | some (g1, r1) =>
    match r1 with
    | '-' :: r2 =>
      firstSome (dTake r2) fun p2 =>
        match p2.2 with
        | '-' :: r4 =>
          match dTake r4 with
          | [] => none
          | (g3, r5) :: _ =>
            let t := optTimeGroup r5
            some ⟨g1, p2.1, g3, t.1, t.2.1, t.2.2⟩
        | _ => none
    | _ => none
  | none => none

/-- Leftmost match of an at-position matcher (JS `String#match` with a
non-global, non-anchored regex). -/
def searchPos (f : List Char → Option α) : List Char → Option α
  | [] => f []
  | l@(_ :: rest) =>
    match f l with
    | some r => some r
    | none => searchPos f rest

/-- Source string of the first date regex of `parseTimeExpression`
(braces written as escapes).  The dispatch below tests this string for
`:` and `/`, exactly as `format.source.includes(...)` does. -/
def dateSource1 : String :=
  "(\\d\x7b1,2\x7d):(\\d\x7b1,2\x7d):(\\d\x7b4\x7d)(?:\\s+(\\d\x7b1,2\x7d)(?::(\\d\x7b2\x7d))?\\s*(am|pm)?)?"

/-- Source string of the second date regex (`M/D/YYYY`). -/
def dateSource2 : String :=
  "(\\d\x7b1,2\x7d)\\/(\\d\x7b1,2\x7d)\\/(\\d\x7b4\x7d)(?:\\s+(\\d\x7b1,2\x7d)(?::(\\d\x7b2\x7d))?\\s*(am|pm)?)?"

/-- Source string of the third date regex (`YYYY-M-D`).  Note that it
contains a `:` inside its optional time group `(?::(\d{2}))?`. -/
def dateSource3 : String :=
  "(\\d\x7b4\x7d)-(\\d\x7b1,2\x7d)-(\\d\x7b1,2\x7d)(?:\\s+(\\d\x7b1,2\x7d)(?::(\\d\x7b2\x7d))?\\s*(am|pm)?)?"

/-- The shared AM/PM normalization of `parseTimeExpression` (used by the
date formats, `today ...`, `tomorrow ...` and the marked time formats):
`pm` on an hour other than 12 adds 12, `am` on hour 12 gives 0, anything
else leaves the hour unchanged (an absent marker compares unequal to both
literals, as `undefined` does in JS). -/
def ampmAdjust (hour : Int) (ampm : Option String) : Int :=
  if ampm = some "pm" ∧ hour ≠ 12 then hour + 12
  else if ampm = some "am" ∧ hour = 12 then 0
  else hour

/-- Month/day/year extraction of the date-format rule, dispatching on the
regex source exactly as the source does (`format.source.includes(':')`
first, then `includes('/')`, else year-month-day).  Returns
`(month0, day, year)` with the JS 0-based month. -/
def dateBranch (source : String) (g1 g2 g3 : String) : Int × Int × Int :=
  if source.data.any (fun c => c = ':') then (parseIntD g1 - 1, parseIntD g2, parseIntD g3)
  else if source.data.any (fun c => c = '/') then (parseIntD g1 - 1, parseIntD g2, parseIntD g3)
  else (parseIntD g2 - 1, parseIntD g3, parseIntD g1)

/-- Timestamp computed by the date-format rule for a match of the regex
with the given source: positional month/day/year via `dateBranch`, hour
defaulting to 9 and minutes to 0 when the optional time group is absent,
AM/PM-normalized hour, then `new Date(year, month, day, hour, minutes)`. -/
def dateRule (source : String) (caps : DateCaps) : Int :=
  let mdy := dateBranch source caps.g1 caps.g2 caps.g3
  let hm : Int × Int :=
    if truthyStr caps.g4 then
      let hour0 := parseIntD (caps.g4.getD "")
      let minutes := if truthyStr caps.g5 then parseIntD (caps.g5.getD "") else 0
      (ampmAdjust hour0 caps.g6, minutes)
    else (9, 0)
  makeDateMs mdy.2.2 mdy.1 mdy.2.1 hm.1 hm.2

/-- The `for (const format of dateFormats)` loop: try the three date
regexes in order, first match wins. -/
def dateFormatsLoop (l : List Char) : Option Int :=
  match searchPos (matchSepDateAt ':') l with
  | some caps => some (dateRule dateSource1 caps)
  | none =>
    match searchPos (matchSepDateAt '/') l with
    | some caps => some (dateRule dateSource2 caps)
    | none =>
      match searchPos matchIsoDateAt l with
      | some caps => some (dateRule dateSource3 caps)
      | none => none

/-- Try `KW\s+(\d{1,2})(?::(\d{2}))?\s*(am|pm)?` at the current position,
for the keyword `today` or `tomorrow`. -/
def matchKwTimeAt (kw l : List Char) : Option (String × Option String × Option String) :=
  match stripLit kw l with
  | none => none
  | some r =>
    if (r.takeWhile isJsWS) = [] then none
    else
      match dTake (r.dropWhile isJsWS) with
      | [] => none
      | (h, rest) :: _ =>
        let mm := optColonMM rest
        let ap := optAmPm (mm.2.dropWhile isJsWS)
        some (h, mm.1, ap.1)

/-- Timestamp of the `today`/`tomorrow` + time-of-day rules: the civil day
of `now` shifted by `dayShift` days, at the normalized hour (no
roll-forward in either rule). -/
def kwTimeRule (caps : String × Option String × Option String) (dayShift now : Int) : Int :=
  let hour := ampmAdjust (parseIntD caps.1) caps.2.2
  let minutes := if truthyStr caps.2.1 then parseIntD ((caps.2.1).getD "") else 0
  dayStartMs now + dayShift * 86400000 + hour * 3600000 + minutes * 60000

/-- Try `in (\d+) hours?` at the current position (literal single spaces),
returning the parsed hour count. -/
def inHoursAt (l : List Char) : Option Int :=
  match stripLit ['i', 'n', ' '] l with
  | none => none
  | some r =>
    match dPlus r with
    | none => none
    | some (n, r2) =>
      match stripLit [' ', 'h', 'o', 'u', 'r'] r2 with
      | some _ => some (parseIntD n)
      | none => none

/-- Try `in (\d+) minutes?` at the current position. -/
def inMinutesAt (l : List Char) : Option Int :=
  match stripLit ['i', 'n', ' '] l with
  | none => none
  | some r =>
    match dPlus r with
    | none => none
    | some (n, r2) =>
      match stripLit [' ', 'm', 'i', 'n', 'u', 't', 'e'] r2 with
      | some _ => some (parseIntD n)
      | none => none

/-- Captures of the four direct time-format regexes as read by the source:
`match[1]` (always the hour digits), `match[2]` and `match[3]`.  The
second format `(?:at\s+)?(\d{1,2})\s*(am|pm)` has only two capture
groups, so its match array puts the am/pm marker at index 2 and has
nothing at index 3. -/
def timeFmt1At (l : List Char) : Option (String × Option String × Option String) :=
  firstSome (atWordOpt l) fun l1 =>
    firstSome (dTake l1) fun p =>
      match p.2 with
      | ':' :: a :: b :: r2 =>
        if isDigitCh a ∧ isDigitCh b then
          match reqAmPm (r2.dropWhile isJsWS) with
          | some (ap, _) => some (p.1, some (String.mk [a, b]), some ap)
          | none => none
        else none
      | _ => none

/-- Try `(?:at\s+)?(\d{1,2})\s*(am|pm)` at the current position; the
marker lands in capture 2 and capture 3 is undefined. -/
def timeFmt2At (l : List Char) : Option (String × Option String × Option String) :=
  firstSome (atWordOpt l) fun l1 =>
    firstSome (dTake l1) fun p =>
      match reqAmPm (p.2.dropWhile isJsWS) with
      | some (ap, _) => some (p.1, some ap, none)
      | none => none

/-- Try `(?:at\s+)?(\d{1,2}):(\d{2})` at the current position. -/
def timeFmt3At (l : List Char) : Option (String × Option String × Option String) :=
  firstSome (atWordOpt l) fun l1 =>
    firstSome (dTake l1) fun p =>
      match p.2 with
      | ':' :: a :: b :: _ =>
        if isDigitCh a ∧ isDigitCh b then some (p.1, some (String.mk [a, b]), none)
        else none
      | _ => none

/-- Try `(?:at\s+)?(\d{1,2})(?::(\d{2}))?` at the current position. -/
def timeFmt4At (l : List Char) : Option (String × Option String × Option String) :=
  firstSome (atWordOpt l) fun l1 =>
    match dTake l1 with
    | [] => none
    | p :: _ => some (p.1, (optColonMM p.2).1, none)

/-- Effective hour of the direct time-format rule: an am/pm capture goes
through the normalization, otherwise an hour of at most 12 while the
current hour (per `now`) is at least 12 is bumped by 12 (the PM
heuristic). -/
def rule8EffHour (hour : Int) (ampm : Option String) (now : Int) : Int :=
  match ampm with
  | some s => ampmAdjust hour (some s)
  | none => if hour ≤ 12 ∧ 12 ≤ nowHours now then hour + 12 else hour

/-- Resolution of the direct time-format rule: set the effective hour and
the (possibly `NaN`) minutes on today's date, and if the result is at or
before `now` move it one day forward (`setDate(getDate() + 1)`). -/
def rule8Resolve (hour : Int) (minutes : JSNum) (ampm : Option String) (now : Int) : JSNum :=
  let target := jsSetHours now (rule8EffHour hour ampm now) minutes
  if jsLe target now then jsAddMs target 86400000 else target

/-- Body run for the first direct time format that matches: read the hour
from capture 1, the minutes from capture 2 when truthy (JS `parseInt`, so
the string `"am"` gives `NaN`), the marker from capture 3. -/
def rule8Body (caps : String × Option String × Option String) (now : Int) : JSNum :=
  let minutes := if truthyStr caps.2.1 then parseIntJS caps.2.1 else JSNum.num 0
  rule8Resolve (parseIntD caps.1) minutes caps.2.2 now

/-- The `for (const format of timeFormats)` loop followed by the final
`now + 1 hour` default of `parseTimeExpression`. -/
def timeFormatsLoop (l : List Char) (now : Int) : JSNum :=
  match searchPos timeFmt1At l with
  | some caps => rule8Body caps now
  | none =>
    match searchPos timeFmt2At l with
    | some caps => rule8Body caps now
    | none =>
      match searchPos timeFmt3At l with
      | some caps => rule8Body caps now
      | none =>
        match searchPos timeFmt4At l with
        | some caps => rule8Body caps now
        | none => JSNum.num (now + 3600000)

/-- The time-expression parser `parseTimeExpression` of `src/commands.ts`
(lines 1501-1662).  The source function takes only the text and opens
with `const now = new Date();`, reading the reference instant from the
ambient clock; that ambient read is modelled by the explicit `now`
parameter (epoch milliseconds). -/
def parseTimeExpression (timeExpression : String) (now : Int) : JSNum :=
  let l := timeExpression.data.map Char.toLower
  match dateFormatsLoop l with
  | some t => JSNum.num t
  | none =>
    match searchPos (matchKwTimeAt "today".data) l with
    | some caps => JSNum.num (kwTimeRule caps 0 now)
    | none =>
      match searchPos (matchKwTimeAt "tomorrow".data) l with
      | some caps => JSNum.num (kwTimeRule caps 1 now)
      | none =>
        if containsSub l "tomorrow".data then
          JSNum.num (dayStartMs now + 86400000 + 9 * 3600000)
        else if containsSub l "next week".data then
          JSNum.num (dayStartMs now + 7 * 86400000 + 9 * 3600000)
        else
          match searchPos inHoursAt l with
          | some n => JSNum.num (now + n * 3600000)
          | none =>
            match searchPos inMinutesAt l with
            | some n => JSNum.num (now + n * 60000)
            | none => timeFormatsLoop l now

/-- Whether any of the rules of `parseTimeExpression` matches the (already
arbitrary-case) expression — the exact sequence of pattern tests the
function performs before falling back to `now + 1 hour`. -/
def anyTimeRuleMatches (timeExpression : String) : Bool :=
  let l := (timeExpression.data.map Char.toLower : List Char)
  (dateFormatsLoop l).isSome ||
  (searchPos (matchKwTimeAt "today".data) l).isSome ||
  (searchPos (matchKwTimeAt "tomorrow".data) l).isSome ||
  containsSub l "tomorrow".data ||
  containsSub l "next week".data ||
  (searchPos inHoursAt l).isSome ||
  (searchPos inMinutesAt l).isSome ||
  (searchPos timeFmt1At l).isSome ||
  (searchPos timeFmt2At l).isSome ||
  (searchPos timeFmt3At l).isSome ||
  (searchPos timeFmt4At l).isSome

/-- Strip a literal from the front, case-insensitively (the `/i` flag;
ASCII lowering as in the keyword literals involved). -/
def stripLitCI : List Char → List Char → Option (List Char)
  | [], l => some l
  | p :: ps, c :: cs => if c.toLower = p then stripLitCI ps cs else none
  | _ :: _, [] => none

/-- JS `String#trim` (with the whitespace class modelled by `isJsWS`). -/
def trimJs (s : String) : String :=
  String.mk (((s.data.dropWhile isJsWS).reverse.dropWhile isJsWS).reverse)

/-- Try the reminder-keyword regex `\s*(reminder|remainder)\s+at\s+(.+?)$`
(flag `i`) at the current position, returning the characters captured by
`(.+?)$` on success.  Because of the `$` anchor, every successful match
extends to the end of the string.  The lazy `(.+?)` must still reach the
anchor, so it captures whatever follows the greedy `\s+` — unless the
string ends in whitespace, in which case `\s+` gives back exactly one
non-line-terminator character for `.+?` to consume.  A line terminator
after the keyword that `.` cannot cross makes the match at this position
fail. -/
def tryReminderAt (l : List Char) : Option (List Char) :=
  let l1 := l.dropWhile isJsWS
  let afterKw :=
    match stripLitCI "reminder".data l1 with
    | some r => some r
    | none => stripLitCI "remainder".data l1
  match afterKw with
  | none => none
  | some l2 =>
    if (l2.takeWhile isJsWS) = [] then none
    else
      match stripLitCI "at".data (l2.dropWhile isJsWS) with
      | none => none
      | some l4 =>
        let ws := l4.takeWhile isJsWS
        let rest := l4.dropWhile isJsWS
        if ws = [] then none
        else if rest ≠ [] then
          if rest.any isJsLineTerm then none else some rest
        else
          match ws.getLast? with
          | some c => if 2 ≤ ws.length ∧ ¬ isJsLineTerm c then some [c] else none
          | none => none

/-- Leftmost match of the reminder-keyword regex: the start index of the
match (everything from there to the end of the string is the matched
text, removed by `String#replace`) together with the `(.+?)$` capture. -/
def reminderMatchIdx : List Char → Option (Nat × List Char)
  | [] => none
  | l@(_ :: rest) =>
    match tryReminderAt l with
    | some texpr => some (0, texpr)
    | none => (reminderMatchIdx rest).map (fun p => (p.1 + 1, p.2))

/-- Result shape of `parseReminderFromText`: the fields that are absent
from the `{ hasReminder: false }` return are `none`. -/
structure ReminderDetection where
  hasReminder : Bool
  reminderTime : Option JSNum
  cleanText : Option String
deriving DecidableEq, Repr

/-- The reminder keyword gate `parseReminderFromText` of `src/commands.ts`
(lines 1384-1419): look for the `reminder/remainder at` phrase; without a
match report `hasReminder: false` and nothing else; with a match, the
time expression is the trimmed `(.+?)$` capture, the clean text is the
input with the whole match (which always runs to the end of the string)
replaced by nothing and trimmed, and the time is whatever
`parseTimeExpression` makes of the expression.  `now` models the ambient
clock read inside `parseTimeExpression`. -/
def parseReminderFromText (text : String) (now : Int) : ReminderDetection :=
  match reminderMatchIdx text.data with
  | none => ⟨false, none, none⟩
  | some (i, texpr) =>
    let timeExpression := trimJs (String.mk texpr)
    let cleanText := trimJs (String.mk (text.data.take i))
    ⟨true, some (parseTimeExpression timeExpression now), some cleanText⟩

/-- JS truthiness of the `reminderTime` field: `undefined`, `NaN` and `0`
are falsy. -/
def jsTruthyTime : Option JSNum → Bool
  | some (JSNum.num t) => t ≠ 0
  | some JSNum.nan => false
  | none => false

/-- The reminder-creation guard
`reminderDetection.hasReminder && reminderDetection.reminderTime &&
reminderDetection.cleanText` shared by `processNoteInput` (line 842) and
`processTodoInput` (line 902). -/
def reminderGuard (d : ReminderDetection) : Bool :=
  d.hasReminder && jsTruthyTime d.reminderTime && truthyStr d.cleanText

/-- Whether `processNoteInput` reaches `createReminder` for this text. -/
def processNoteCreatesReminder (text : String) (now : Int) : Bool :=
  reminderGuard (parseReminderFromText text now)

/-- Whether `processTodoInput` reaches `createReminder` for this text. -/
def processTodoCreatesReminder (text : String) (now : Int) : Bool :=
  reminderGuard (parseReminderFromText text now)

/-- A row of the `user_input_states` table (schema.sql):
`id TEXT PRIMARY KEY`, `user_id INTEGER NOT NULL`, a mode string and a
creation timestamp.  The table carries no UNIQUE constraint on
`user_id` (only the non-unique index `idx_user_input_states_user_id`). -/
structure UserInputRow where
  id : String
  userId : Int
  mode : String
  createdAt : Int
deriving DecidableEq, Repr

/-- SQLite `INSERT OR REPLACE` against this table: the only uniqueness
constraint is the primary key `id`, so exactly the rows with the same
`id` are replaced (deleted, with the new row inserted at the end in rowid
order).  Tables are modelled as lists in rowid order. -/
def insertOrReplace (tbl : List UserInputRow) (row : UserInputRow) : List UserInputRow :=
  (tbl.filter fun r => r.id ≠ row.id) ++ [row]

/-- `setUserInputState` (commands.ts lines 283-290): insert-or-replace a
row with a freshly generated UUID (`crypto.randomUUID()`, modelled by the
`freshId` parameter) for the given user and mode. -/
def setUserInputState (tbl : List UserInputRow) (freshId : String) (userId : Int)
    (mode : String) (nowMs : Int) : List UserInputRow :=
  insertOrReplace tbl ⟨freshId, userId, mode, nowMs⟩

/-- `getUserInputState` (lines 292-305):
`SELECT * FROM user_input_states WHERE user_id = ?` followed by
`.first()` — the first matching row in rowid order. -/
def getUserInputState (tbl : List UserInputRow) (userId : Int) : Option UserInputRow :=
  tbl.find? fun r => r.userId = userId

/-- `clearUserInputState` (lines 307-311):
`DELETE FROM user_input_states WHERE user_id = ?`. -/
def clearUserInputState (tbl : List UserInputRow) (userId : Int) : List UserInputRow :=
  tbl.filter fun r => r.userId ≠ userId

/-- The `try { ... createReminder ... } catch { ... }` block inside
`processNoteInput`/`processTodoInput`: a failure of reminder creation is
caught and swallowed ("Continue without reminder"). -/
def reminderTryCatch (r : Except String Unit) : Except String Unit :=
  match r with
  | Except.ok _ => Except.ok ()
  | Except.error _ => Except.ok ()

/-- Control-flow skeleton of `processNoteInput` (lines 829-885) /
`processTodoInput` (lines 887-936): the record-creation call
(`createNote`/`createTodo`) is not wrapped in any handler, so its failure
propagates; a subsequent reminder-creation failure is caught. -/
def processNoteInputE (createResult reminderResult : Except String Unit) :
    Except String Unit :=
  match createResult with
  | Except.error e => Except.error e
  | Except.ok _ => reminderTryCatch reminderResult

/-- Control-flow skeleton of `handleUserInput` (lines 547-564): await the
mode's processing call, then clear the input state.  The two effects are
sequenced with no `try`/`finally`, so when the processing call throws,
the function re-raises and the `DELETE` never runs; the pair returned is
(outcome, table state after the call). -/
def handleUserInput (tbl : List UserInputRow) (userId : Int)
    (downstream : Except String Unit) : Except String Unit × List UserInputRow :=
  match downstream with
  | Except.error e => (Except.error e, tbl)
  | Except.ok _ => (Except.ok (), clearUserInputState tbl userId)

/-- `handleUserInput` for a user in note mode, with the fallible
`createNote` and `createReminder` effects of `processNoteInput` made
explicit. -/
def handleUserInputNote (tbl : List UserInputRow) (userId : Int)
    (createResult reminderResult : Except String Unit) :
    Except String Unit × List UserInputRow :=
  handleUserInput tbl userId (processNoteInputE createResult reminderResult)

/-! Helper lemmas -/

theorem option_eq_none_of_isSome_false {α : Type} {o : Option α}
    (h : o.isSome = false) : o = none := by
  cases o with
  | none => rfl
  | some a => simp at h

theorem getUserInputState_clear (tbl : List UserInputRow) (u : Int) :
    getUserInputState (clearUserInputState tbl u) u = none := by
  induction tbl with
  | nil => rfl
  | cons r rest ih =>
    unfold clearUserInputState at ih ⊢
    unfold getUserInputState at ih ⊢
    by_cases h : r.userId = u
    · simp [List.filter, h, ih]
    · simp [List.filter, h, List.find?, ih]

theorem reminderMatchIdx_drop :
    ∀ (l : List Char) (i : Nat) (texpr : List Char),
      reminderMatchIdx l = some (i, texpr) → tryReminderAt (l.drop i) = some texpr := by
  intro l
  induction l with
  | nil => intro i t h; simp [reminderMatchIdx] at h
  | cons c rest ih =>
    intro i t h
    unfold reminderMatchIdx at h
    cases hc : tryReminderAt (c :: rest) with
    | some te =>
      rw [hc] at h
      cases h
      exact hc
    | none =>
      rw [hc] at h
      cases hm : reminderMatchIdx rest with
      | none => rw [hm] at h; simp at h
      | some p =>
        rw [hm] at h
        simp only [Option.map_some] at h
        cases h
        exact ih p.1 p.2 (by rw [hm])

theorem rule8EffHour_nonneg (hour : Int) (ampm : Option String) (now : Int)
    (h : 0 ≤ hour) : 0 ≤ rule8EffHour hour ampm now := by
  unfold rule8EffHour ampmAdjust
  cases ampm with
  | none =>
    by_cases hc : hour ≤ 12 ∧ 12 ≤ nowHours now <;> simp [hc] <;> omega
  | some s =>
    by_cases h1 : some s = some "pm" ∧ hour ≠ 12
    · simp [h1]; omega
    · simp only [h1, if_false]
      by_cases h2 : some s = some "am" ∧ hour = 12
      · simp [h2]
      · simp only [h2, if_false]; exact h

theorem lt_dayStart_add_day (now : Int) : now < dayStartMs now + 86400000 := by
  unfold dayStartMs
  have h : now % 86400000 < 86400000 := Int.emod_lt_of_pos now (by norm_num)
  omega

/-! Claim theorems -/

/-- Claim C1: the spec says `setMode(U, M)` (`setUserInputState`) replaces
any existing mode record for U, keeping at most one active record per
user, and that `getMode(U)` then returns M.  The code is wrong: the
`INSERT OR REPLACE` can only replace on a uniqueness conflict, the fresh
`crypto.randomUUID()` primary key never conflicts, and `user_id` carries
no UNIQUE constraint — so a second `setMode` for the same user leaves two
rows, and `getUserInputState` (a `SELECT ... .first()` in rowid order)
still returns the old mode. -/
theorem setUserInputState_accumulates_rows :
    (getUserInputState
        (setUserInputState (setUserInputState [] "a" 7 "note" 0) "b" 7 "todo" 1)
        7).map UserInputRow.mode = some "note" ∧
    ((setUserInputState (setUserInputState [] "a" 7 "note" 0) "b" 7 "todo" 1).filter
        fun r => r.userId = 7).length = 2 := by
  constructor <;> rfl

/-- Claim C2: the spec says the `YYYY-M-D` style reads year, month, day
positionally and lands on the named calendar date.  The month-first
formats do behave as claimed (`12:2:2026 7pm` is 2026-12-02T19:00), but
the dispatch `format.source.includes(':')` is also true for the third
regex (its optional time group contains `(?::...)`), so `2026-12-2 8am`
takes the month-day-year branch: month index 2025, day 12, year 2
(mapped to 1902) — i.e. 2070-10-12T08:00, not the named date
2026-12-02T08:00 (`makeDateMs 2026 11 2 8 0`). -/
theorem parseTimeExpression_isoDate_wrong_branch :
    parseTimeExpression "12:2:2026 7pm" 0 = JSNum.num 1796238000000 ∧
    parseTimeExpression "2026-12-2 8am" 0 = JSNum.num 3180326400000 ∧
    dateSource3.data.any (fun c => c = ':') = true ∧
    makeDateMs 2026 11 2 8 0 = 1796198400000 ∧
    (3180326400000 : Int) ≠ 1796198400000 := by
  refine ⟨by decide, by decide, by decide, by decide, by decide⟩

/-- Claim C3 (counterexample): the claim says the mode record is cleared
even if the downstream creation operation fails.  In the code the clear
runs strictly after the awaited `process*` call with no `try`/`finally`,
so when record creation throws (`createNote` failing here), the error
propagates and the user's mode row survives. -/
theorem handleUserInput_failure_keeps_mode :
    getUserInputState
        (handleUserInputNote [⟨"a", 7, "note", 0⟩] 7 (Except.error "db") (Except.ok ())).2
        7 = some ⟨"a", 7, "note", 0⟩ ∧
    (handleUserInputNote [⟨"a", 7, "note", 0⟩] 7 (Except.error "db") (Except.ok ())).1 =
      Except.error "db" := by
  constructor <;> rfl

/-- Claim C3 (amended): the mode is cleared whenever the creation
operation completes without throwing; a reminder-creation failure inside
note processing is caught there and so cannot prevent the clear; but a
throwing creation operation propagates and the mode is not cleared. -/
theorem handleUserInput_clears_on_success :
    (∀ tbl userId remRes,
        handleUserInputNote tbl userId (Except.ok ()) remRes =
          (Except.ok (), clearUserInputState tbl userId)) ∧
    (∀ tbl userId,
        getUserInputState (clearUserInputState tbl userId) userId = none) ∧
    (∀ tbl userId e,
        (handleUserInputNote tbl userId (Except.error e) (Except.ok ())).2 = tbl) := by
  refine ⟨fun tbl userId remRes => ?_, fun tbl userId => getUserInputState_clear tbl userId,
    fun tbl userId e => rfl⟩
  cases remRes <;> rfl

/-- Claim C4 (counterexample): the claim says only the time phrase after
"at" is stripped, so words after the time phrase stay in the remainder
text.  On `"Call mom Reminder at 5pm then sleep"` the regex
`\s*(reminder|remainder)\s+at\s+(.+?)$` matches through to the end of the
string, so the code's clean text is `"Call mom"`, not the
`"Call mom then sleep"` the claim requires. -/
theorem parseReminderFromText_drops_tail_words :
    (parseReminderFromText "Call mom Reminder at 5pm then sleep" 0).cleanText =
      some "Call mom" ∧
    ("Call mom" : String) ≠ "Call mom then sleep" := by
  refine ⟨by rfl, by decide⟩

/-- Claim C4 (amended): every keyword match extends from the keyword to
the end of the string, and the reported clean text is exactly the trimmed
text before the match start; everything from the match start to
end-of-string (keyword, time phrase and any trailing words) is
stripped. -/
theorem parseReminderFromText_strips_to_end :
    ∀ text now d, parseReminderFromText text now = d → d.hasReminder = true →
      ∃ i, d.cleanText = some (trimJs (String.mk (text.data.take i))) ∧
        tryReminderAt (text.data.drop i) ≠ none ∧
        text.data.take i ++ text.data.drop i = text.data := by
  intro text now d hd hrem
  unfold parseReminderFromText at hd
  cases hm : reminderMatchIdx text.data with
  | none => rw [hm] at hd; rw [← hd] at hrem; simp at hrem
  | some p =>
    rw [hm] at hd
    refine ⟨p.1, ?_, ?_, List.take_append_drop p.1 text.data⟩
    · rw [← hd]
    · rw [reminderMatchIdx_drop text.data p.1 p.2 (by rw [hm])]
      simp

/-- Claim C4 (amended, witness). -/
theorem parseReminderFromText_strips_to_end_witness :
    ∃ i, (parseReminderFromText "A Reminder at 5pm" 0).cleanText =
        some (trimJs (String.mk ((("A Reminder at 5pm" : String)).data.take i))) ∧
      tryReminderAt ((("A Reminder at 5pm" : String)).data.drop i) ≠ none ∧
      (("A Reminder at 5pm" : String)).data.take i ++
        (("A Reminder at 5pm" : String)).data.drop i =
        (("A Reminder at 5pm" : String)).data :=
  parseReminderFromText_strips_to_end "A Reminder at 5pm" 0 _ rfl (by rfl)

/-- Claim C5 (counterexample): the claim says the parse never reads the
current time from an ambient global.  The source function's only
parameter is the text, yet its result varies with the ambient instant
(`const now = new Date()` at entry): the same text parses to different
timestamps at different ambient times. -/
theorem parseTimeExpression_reads_ambient_clock :
    parseTimeExpression "in 2 hours" 0 ≠ parseTimeExpression "in 2 hours" 3600000 := by
  decide

/-- Claim C5 (amended): with the ambient clock read modelled as an
explicit parameter, the parse is a deterministic pure function of the
text and that instant — equal text and equal instant give equal results —
but it is not a function of the text alone. -/
theorem parseTimeExpression_deterministic :
    (∀ e n1 n2, n1 = n2 → parseTimeExpression e n1 = parseTimeExpression e n2) ∧
    (∃ e n1 n2, parseTimeExpression e n1 ≠ parseTimeExpression e n2) :=
  ⟨fun e n1 n2 h => by rw [h], ⟨"in 3 minutes", 0, 60000, by decide⟩⟩

/-- Claim C5 (amended, witness). -/
theorem parseTimeExpression_deterministic_witness :
    parseTimeExpression "tomorrow" 0 = parseTimeExpression "tomorrow" 0 :=
  parseTimeExpression_deterministic.1 "tomorrow" 0 0 rfl

/-- Claim C6: when the `reminder/remainder at` keyword regex finds no
match in the text, the keyword-gated parse reports `hasReminder: false`
with no timestamp field at all — the rule engine (and its `now + 1 hour`
fallback) is never invoked. -/
theorem parseReminderFromText_absent_keyword :
    ∀ text now, reminderMatchIdx text.data = none →
      parseReminderFromText text now = ⟨false, none, none⟩ := by
  intro text now h
  unfold parseReminderFromText
  rw [h]

/-- Claim C6 (witness): the spec's own example `"Buy milk"`. -/
theorem parseReminderFromText_absent_keyword_witness :
    parseReminderFromText "Buy milk" 12345 = ⟨false, none, none⟩ :=
  parseReminderFromText_absent_keyword "Buy milk" 12345 (by decide)

/-- Claim C7: for the direct time-format rule, (i) an hour of at most 12
with no am/pm capture is bumped by 12 whenever the hour of `now` is at
least 12; (ii) whenever the computed time-of-day is at or before `now`,
one day is added; (iii) consequently, whenever the minutes value is an
actual number (so the timestamp is not `NaN`), the returned timestamp is
strictly after `now`. -/
theorem rule8_pm_heuristic_and_future :
    (∀ hour now, hour ≤ 12 → 12 ≤ nowHours now →
        rule8EffHour hour none now = hour + 12) ∧
    (∀ hour minutes ampm now t,
        jsSetHours now (rule8EffHour hour ampm now) (JSNum.num minutes) = JSNum.num t →
        t ≤ now →
        rule8Resolve hour (JSNum.num minutes) ampm now = JSNum.num (t + 86400000)) ∧
    (∀ hour minutes ampm now, 0 ≤ hour → 0 ≤ minutes →
        ∃ t, rule8Resolve hour (JSNum.num minutes) ampm now = JSNum.num t ∧ now < t) := by
  refine ⟨?_, ?_, ?_⟩
  · intro hour now h1 h2
    unfold rule8EffHour
    simp [h1, h2]
  · intro hour minutes ampm now t hset hle
    unfold rule8Resolve
    rw [hset]
    simp [jsLe, hle, jsAddMs]
  · intro hour minutes ampm now h0 hm
    have hH : 0 ≤ rule8EffHour hour ampm now := rule8EffHour_nonneg hour ampm now h0
    have h1 : 0 ≤ rule8EffHour hour ampm now * 3600000 :=
      mul_nonneg hH (by norm_num)
    have h2 : 0 ≤ minutes * 60000 := mul_nonneg hm (by norm_num)
    have hday := lt_dayStart_add_day now
    unfold rule8Resolve jsSetHours
    by_cases hle :
        dayStartMs now + rule8EffHour hour ampm now * 3600000 + minutes * 60000 ≤ now
    · refine ⟨dayStartMs now + rule8EffHour hour ampm now * 3600000 +
        minutes * 60000 + 86400000, ?_, by omega⟩
      simp [jsLe, hle, jsAddMs]
    · refine ⟨dayStartMs now + rule8EffHour hour ampm now * 3600000 +
        minutes * 60000, ?_, by omega⟩
      simp [jsLe, hle]

/-- Claim C7 (witness): at noon (`now = 43200000`), a bare hour 5 becomes
17; a bare `5:30` resolves strictly into the future; an explicit `12 am`
time at-or-before noon rolls forward one day. -/
theorem rule8_pm_heuristic_and_future_witness :
    rule8EffHour 5 none 43200000 = 5 + 12 ∧
    (∃ t, rule8Resolve 5 (JSNum.num 30) none 43200000 = JSNum.num t ∧ 43200000 < t) ∧
    rule8Resolve 0 (JSNum.num 0) (some "am") 43200000 = JSNum.num (0 + 86400000) :=
  ⟨rule8_pm_heuristic_and_future.1 5 43200000 (by decide) (by decide),
   rule8_pm_heuristic_and_future.2.2 5 30 none 43200000 (by decide) (by decide),
   rule8_pm_heuristic_and_future.2.1 0 0 (some "am") 43200000 0 (by decide) (by decide)⟩

/-- Claim C8: the claim describes the AM/PM normalization as holding for
every matched time-of-day.  The normalization branch itself does map
12 am to 0, 1-11 pm to +12, 12 pm to 12, and takes an unmarked 24-hour
value literally (first four conjuncts).  But the bare `H am/pm` time
format `(?:at\s+)?(\d{1,2})\s*(am|pm)` has only two capture groups while
the body reads the minutes from capture 2 and the marker from capture 3,
so for inputs like `12am` or `8am` the marker is parsed as minutes
(`parseInt("am")`, i.e. `NaN`), the normalization never runs, and the
result is a `NaN` timestamp instead of the claimed hour-0/hour-8 time. -/
theorem ampm_normalization_and_lost_marker :
    ampmAdjust 12 (some "am") = 0 ∧
    ampmAdjust 7 (some "pm") = 19 ∧
    ampmAdjust 12 (some "pm") = 12 ∧
    rule8EffHour 17 none 0 = 17 ∧
    parseTimeExpression "12am" 43200000 = JSNum.nan ∧
    parseTimeExpression "8am" 43200000 = JSNum.nan := by
  refine ⟨by decide, by decide, by decide, by decide, by decide, by decide⟩

/-- Claim C9: the parser is a total function (both entry points are plain
recursive definitions, so termination and absence of exceptions hold by
construction); when none of the rule patterns matches, the ungated rule
engine resolves to `now + 1 hour`, and when the keyword phrase is absent
the gated path reports `found = false` with no timestamp. -/
theorem parseTimeExpression_total_fallback :
    (∀ e now, anyTimeRuleMatches e = false →
        parseTimeExpression e now = JSNum.num (now + 3600000)) ∧
    (∀ text now, reminderMatchIdx text.data = none →
        (parseReminderFromText text now).hasReminder = false ∧
        (parseReminderFromText text now).reminderTime = none) := by
  constructor
  · intro e now h
    simp only [anyTimeRuleMatches, Bool.or_eq_false_iff] at h
    obtain ⟨⟨⟨⟨⟨⟨⟨⟨⟨⟨h1, h2⟩, h3⟩, h4⟩, h5⟩, h6⟩, h7⟩, h8⟩, h9⟩, h10⟩, h11⟩ := h
    have e1 := option_eq_none_of_isSome_false h1
    have e2 := option_eq_none_of_isSome_false h2
    have e3 := option_eq_none_of_isSome_false h3
    have e6 := option_eq_none_of_isSome_false h6
    have e7 := option_eq_none_of_isSome_false h7
    have e8 := option_eq_none_of_isSome_false h8
    have e9 := option_eq_none_of_isSome_false h9
    have e10 := option_eq_none_of_isSome_false h10
    have e11 := option_eq_none_of_isSome_false h11
    simp [parseTimeExpression, timeFormatsLoop, e1, e2, e3, h4, h5, e6, e7, e8, e9, e10, e11]
  · intro text now h
    unfold parseReminderFromText
    rw [h]
    exact ⟨rfl, rfl⟩

/-- Claim C9 (witness): `"soon"` matches no rule and falls back to one
hour after `now`; `"hello"` has no keyword and reports found = false. -/
theorem parseTimeExpression_total_fallback_witness :
    parseTimeExpression "soon" 5 = JSNum.num (5 + 3600000) ∧
    ((parseReminderFromText "hello" 0).hasReminder = false ∧
      (parseReminderFromText "hello" 0).reminderTime = none) :=
  ⟨parseTimeExpression_total_fallback.1 "soon" 5 (by decide),
   parseTimeExpression_total_fallback.2 "hello" 0 (by decide)⟩

/-- Claim C10: a message that is nothing but the keyword phrase plus a
time expression trims to an empty clean text; the gate still reports
`hasReminder: true`, but the creation guard of `processNoteInput` and
`processTodoInput` requires a truthy (non-empty) `cleanText`, so neither
creates a reminder record. -/
theorem emptyCleanText_no_reminder :
    ∀ text now, (parseReminderFromText text now).cleanText = some "" →
      (parseReminderFromText text now).hasReminder = true ∧
      processNoteCreatesReminder text now = false ∧
      processTodoCreatesReminder text now = false := by
  intro text now h
  unfold processNoteCreatesReminder processTodoCreatesReminder reminderGuard
  unfold parseReminderFromText at h ⊢
  cases hm : reminderMatchIdx text.data with
  | none => rw [hm] at h; simp at h
  | some p =>
    obtain ⟨i, texpr⟩ := p
    rw [hm] at h
    simp only [Option.some.injEq] at h
    refine ⟨rfl, ?_, ?_⟩ <;> simp [h, truthyStr]

/-- Claim C10 (witness): the pure-keyword message `"Reminder at 5pm"`. -/
theorem emptyCleanText_no_reminder_witness :
    (parseReminderFromText "Reminder at 5pm" 0).hasReminder = true ∧
    processNoteCreatesReminder "Reminder at 5pm" 0 = false ∧
    processTodoCreatesReminder "Reminder at 5pm" 0 = false :=
  emptyCleanText_no_reminder "Reminder at 5pm" 0 (by decide)

end LifeDesk
